import Mathlib

/-!
Verification development for the knowledge-graph store in `src/index.ts`
(mcp-knowledge-graph). The TypeScript store is shallowly embedded: each
operation of `KnowledgeGraphManager` becomes a pure Lean function on an
explicit `KnowledgeGraph` value, with the wall-clock (`new Date().toISOString()`)
and the observation-id generator passed in as parameters. JavaScript's
`Date.parse` / `new Date(s).getTime()` (an external platform primitive) is
modelled by `jsDateParse`, a real executable parser for the ISO-8601 subset
exercised here, returning `none` where JavaScript returns `NaN`.
`Array.prototype.sort` (stable since ES2019) is modelled by a stable insertion
sort over the translated comparator, with the ECMA rule that a comparator
result of `NaN` is treated as `0`.
-/

/-- The observation status union type from `index.ts`
(`'Active' | 'Resolved' | 'Background' | 'Archived'`). A TS value of
`null`/`undefined` is modelled by `Option.none` around this type; the two are
indistinguishable in every comparison the store performs. -/
inductive ObsStatus where
  | active
  | resolved
  | background
  | archived
deriving DecidableEq, Repr

/-- The `Observation` interface from `index.ts`. -/
structure Observation where
  id : String
  entityName : String
  content : String
  timestamp : Option String
  status : Option ObsStatus
  createdAt : String
  version : Nat
deriving DecidableEq, Repr

/-- The `Entity` interface from `index.ts`. `aliases?: string[]` is modelled
as a plain list; an absent alias array and an empty one behave identically in
every place the store reads it (`e.aliases && ...`, `e.aliases?.includes`). -/
structure Entity where
  name : String
  entityType : String
  aliases : List String
  createdAt : String
  version : Nat
deriving DecidableEq, Repr

/-- The `Relation` interface from `index.ts`. The TS field names `from`/`to`
are Lean keywords, rendered `rfrom`/`rto`. -/
structure Relation where
  rfrom : String
  rto : String
  relationType : String
  createdAt : String
  version : Nat
deriving DecidableEq, Repr

/-- The `KnowledgeGraph` interface from `index.ts`. -/
structure KnowledgeGraph where
  entities : List Entity
  relations : List Relation
  observations : List Observation
deriving DecidableEq, Repr

/-- Result record of `parseObservationContent`. -/
structure ParsedContent where
  timestamp : Option String
  status : Option ObsStatus
  text : String
deriving DecidableEq, Repr

/-- Per-group result of `addObservations`. -/
structure AddObsResult where
  addedObservationIds : List String
deriving DecidableEq, Repr

/-- Input payload of `createEntities` (`Partial<Entity>`): every field may be
absent. -/
structure EntityPayload where
  name : Option String := none
  entityType : Option String := none
  aliases : Option (List String) := none
  version : Option Nat := none
deriving DecidableEq, Repr

/-- The `EntityUpdatePayload` interface from `index.ts`. -/
structure EntityUpdatePayload where
  name : String
  newName : Option String := none
  entityType : Option String := none
  aliases : Option (List String) := none
deriving DecidableEq, Repr

/-! ## Model of the JavaScript date primitive -/

def digitVal (c : Char) : Nat := c.toNat - '0'.toNat

def isDigitCh (c : Char) : Bool := '0' ≤ c && c ≤ '9'

/-- Read exactly `n` decimal digits, accumulating their value. -/
def readDigits : Nat → Nat → List Char → Option (Nat × List Char)
  | 0, acc, cs => some (acc, cs)
  | n + 1, acc, c :: cs =>
    if isDigitCh c then readDigits n (acc * 10 + digitVal c) cs else none
  | _ + 1, _, [] => none

def expectChar (c : Char) : List Char → Option (List Char)
  | d :: cs => if d = c then some cs else none
  | [] => none

def isLeapYear (y : Nat) : Bool := (y % 4 == 0 && y % 100 != 0) || y % 400 == 0

def daysInMonth (y m : Nat) : Nat :=
  if m = 2 then (if isLeapYear y then 29 else 28)
  else if m = 4 || m = 6 || m = 9 || m = 11 then 30
  else 31

/-- Days from 1970-01-01 to the given civil date (proleptic Gregorian). -/
def daysFromCivil (y m d : Int) : Int :=
  let yAdj : Int := if m ≤ 2 then y - 1 else y
  let era : Int := (if 0 ≤ yAdj then yAdj else yAdj - 399) / 400
  let yoe : Int := yAdj - era * 400
  let mp : Int := if 2 < m then m - 3 else m + 9
  let doy : Int := (153 * mp + 2) / 5 + d - 1
  let doe : Int := yoe * 365 + yoe / 4 - yoe / 100 + doy
  era * 146097 + doe - 719468

/-- Parse the time-of-day part `HH:MM:SS(.mmm)?Z` at end of input. -/
def parseTimePart (cs : List Char) : Option (Nat × Nat × Nat × Nat) := do
  let (h, cs) ← readDigits 2 0 cs
  let cs ← expectChar ':' cs
  let (mi, cs) ← readDigits 2 0 cs
  let cs ← expectChar ':' cs
  let (s, cs) ← readDigits 2 0 cs
  let (ms, cs) ←
    match cs with
    | '.' :: cs' => readDigits 3 0 cs'
    | _ => some (0, cs)
  match cs with
  | ['Z'] => if h ≤ 23 && mi ≤ 59 && s ≤ 59 then some (h, mi, s, ms) else none
  | _ => none

/-- Model of JavaScript `Date.parse` / `new Date(s).getTime()` on the
ISO-8601 UTC subset `YYYY-MM-DD` and `YYYY-MM-DDTHH:MM:SS(.mmm)?Z`
(both interpreted as UTC by ECMA-262, matching this model); every other
input is mapped to `none`, modelling `NaN`. All date strings appearing in
concrete theorems below fall inside this subset, where the model agrees
with ECMA-262 exactly. -/
def jsDateParse (s : String) : Option Int := do
  let cs := s.data
  let (y, cs) ← readDigits 4 0 cs
  let cs ← expectChar '-' cs
  let (mo, cs) ← readDigits 2 0 cs
  let cs ← expectChar '-' cs
  let (d, cs) ← readDigits 2 0 cs
  if 1 ≤ mo && mo ≤ 12 && 1 ≤ d && d ≤ daysInMonth y mo then
    match cs with
    | [] => some (daysFromCivil y mo d * 86400000)
    | 'T' :: rest => do
      let (h, mi, sec, ms) ← parseTimePart rest
      some (daysFromCivil y mo d * 86400000 +
        ((h * 3600000 + mi * 60000 + sec * 1000 + ms : Nat) : Int))
    | _ => none
  else none

/-- JavaScript truthiness of the number produced by `Date.parse`:
`NaN` (modelled `none`) and `0` are falsy, everything else truthy. -/
def jsTruthyNum : Option Int → Bool
  | some v => v ≠ 0
  | none => false

example : jsDateParse "1970-01-01T00:00:00.000Z" = some 0 := by decide
example : jsDateParse "2024-01-01T00:00:00Z" = some 1704067200000 := by decide
example : jsDateParse "notadate" = none := by decide
example : jsDateParse "2024-01-02" = some 1704153600000 := by decide

/-! ## `parseObservationContent` (index.ts lines 130-154)

The regex `^\[([^\]]+)\](?:\s*\[S:([^\]]+)\])?\s*(.*)` is embedded as a
deterministic scanner (the pattern is deterministic: every quantifier's
continuation is disjoint from its body). `\s` is modelled by the ASCII
whitespace characters; `.` excludes line terminators. -/

def jsWs (c : Char) : Bool :=
  c = ' ' || c = '\t' || c = '\n' || c = '\r' || c = '\x0b' || c = '\x0c'

/-- Scan `[^\]]*` up to and over a closing `]`. -/
def scanTokenAux : List Char → Option (List Char × List Char)
  | [] => none
  | c :: cs =>
    if c = ']' then some ([], cs)
    else
      match scanTokenAux cs with
      | some (tok, rest) => some (c :: tok, rest)
      | none => none

/-- Scan `[^\]]+\]`: a nonempty bracket-free token terminated by `]`. -/
def scanToken (cs : List Char) : Option (List Char × List Char) :=
  match scanTokenAux cs with
  | some (tok, rest) => if tok.isEmpty then none else some (tok, rest)
  | none => none

/-- The full regex match: returns `(match1, match2?, match3)` exactly when the
source regex matches, i.e. the captured timestamp token, the optional status
token, and the free-text capture. -/
def matchBrackets : List Char → Option (List Char × Option (List Char) × List Char)
  | '[' :: rest =>
    match scanToken rest with
    | some (t1, r1) =>
      let p2 : Option (List Char) × List Char :=
        match r1.dropWhile jsWs with
        | '[' :: 'S' :: ':' :: r' =>
          match scanToken r' with
          | some (tok2, r'') => (some tok2, r'')
          | none => (none, r1)
        | _ => (none, r1)
      some (t1, p2.1, (p2.2.dropWhile jsWs).takeWhile (fun c => c ≠ '\n' && c ≠ '\r'))
    | none => none
  | _ => none

/-- JavaScript `String.prototype.toUpperCase` (ASCII range; all strings the
store compares case-insensitively here are ASCII). -/
def upChar (c : Char) : Char :=
  if 'a' ≤ c && c ≤ 'z' then Char.ofNat (c.toNat - 32) else c

def strUpper (s : String) : String := String.mk (s.data.map upChar)

/-- JavaScript `String.prototype.toLowerCase` (ASCII range). -/
def lowChar (c : Char) : Char :=
  if 'A' ≤ c && c ≤ 'Z' then Char.ofNat (c.toNat + 32) else c

def strLower (s : String) : String := String.mk (s.data.map lowChar)

/-- JavaScript `String.prototype.trim` (ASCII whitespace). -/
def strTrim (s : String) : String :=
  String.mk (((s.data.dropWhile jsWs).reverse.dropWhile jsWs).reverse)

/-- The `switch (statusStr)` mapping, applied to `match[2]?.trim().toUpperCase()`. -/
def statusOfToken (t : String) : Option ObsStatus :=
  match strUpper (strTrim t) with
  | "ACTIVE" => some ObsStatus.active
  | "RESOLVED" => some ObsStatus.resolved
  | "BACKGROUND" => some ObsStatus.background
  | "ARCHIVED" => some ObsStatus.archived
  | _ => none

/-- `parseObservationContent` from `index.ts`. Note the source tests
`Date.parse(timestampStr)` for *truthiness*, so both an invalid date (`NaN`)
and the Unix epoch (`0`) drop the timestamp. -/
def parseObservationContent (content : String) : ParsedContent :=
  match matchBrackets content.data with
  | some (t1, t2, txt) =>
    let tsStr := String.mk t1
    { timestamp := if jsTruthyNum (jsDateParse tsStr) then some tsStr else none
      status := match t2 with
        | some tk => statusOfToken (String.mk tk)
        | none => none
      text := String.mk txt }
  | none => { timestamp := none, status := none, text := content }

example :
    parseObservationContent "[2024-01-01T00:00:00Z] [S:Active] Likes tea" =
      { timestamp := some "2024-01-01T00:00:00Z", status := some ObsStatus.active,
        text := "Likes tea" } := by decide

example :
    parseObservationContent "plain text" =
      { timestamp := none, status := none, text := "plain text" } := by decide

/-! ## Stable sort model for `Array.prototype.sort` -/

/-- Insert `x` into `l`, before the first element `y` with `le x y`.
With `le a b := cmp a b ≤ 0` this realises a stable comparator sort. -/
def insertSorted (le : α → α → Bool) (x : α) : List α → List α
  | [] => [x]
  | y :: ys => if le x y then x :: y :: ys else y :: insertSorted le x ys

/-- Stable insertion sort; models `Array.prototype.sort(comparator)`
(stable per ES2019). -/
def sortByCmp (le : α → α → Bool) : List α → List α
  | [] => []
  | x :: xs => insertSorted le x (sortByCmp le xs)

/-- The relation comparator of `getContextInfo` step 5:
`new Date(b.createdAt).getTime() - new Date(a.createdAt).getTime()`.
A `NaN` operand makes the comparator return `NaN`, which ECMA-262 treats
as `0`. -/
def relCmp (a b : Relation) : Int :=
  match jsDateParse b.createdAt, jsDateParse a.createdAt with
  | some tb, some ta => tb - ta
  | _, _ => 0

def relLe (a b : Relation) : Bool := relCmp a b ≤ 0

/-- `a.timestamp ? new Date(a.timestamp) : null` followed by the
`isNaN(getTime())` validity test: an absent or empty timestamp string, or one
that fails to parse, yields no usable time. -/
def obsTs (o : Observation) : Option Int :=
  match o.timestamp with
  | some s => if s ≠ "" then jsDateParse s else none
  | none => none

/-- The observation comparator of `getContextInfo` step 7. -/
def obsCmp (a b : Observation) : Int :=
  match obsTs a, obsTs b with
  | some ta, some tb =>
    if tb - ta ≠ 0 then tb - ta
    else
      match jsDateParse b.createdAt, jsDateParse a.createdAt with
      | some cb, some ca => cb - ca
      | _, _ => 0
  | some _, none => -1
  | none, some _ => 1
  | none, none =>
    match jsDateParse b.createdAt, jsDateParse a.createdAt with
    | some cb, some ca => cb - ca
    | _, _ => 0

def obsLe (a b : Observation) : Bool := obsCmp a b ≤ 0

/-! ## Graph store operations (KnowledgeGraphManager) -/

/-- Does `needle` occur as a contiguous run inside the list? -/
def hasInfixAux (needle : List Char) : List Char → Bool
  | [] => needle.isEmpty
  | c :: cs => needle.isPrefixOf (c :: cs) || hasInfixAux needle cs

/-- JavaScript `haystack.includes(needle)` on strings. -/
def strIncludes (s q : String) : Bool := hasInfixAux q.data s.data

/-- JavaScript truthiness of an optional string (`undefined` and `""` falsy). -/
def truthyStr : Option String → Bool
  | some s => s ≠ ""
  | none => false

/-- `createEntities` (index.ts lines 180-194): silently drop payloads with a
falsy name/entityType or a name that already exists, stamp defaults, append,
and return only the newly created entities. -/
def createEntities (g : KnowledgeGraph) (now : String) (ps : List EntityPayload) :
    KnowledgeGraph × List Entity :=
  let newEntities :=
    (ps.filter (fun p =>
      truthyStr p.name && truthyStr p.entityType &&
        !(g.entities.any (fun ex => some ex.name == p.name)))).map (fun p =>
      { name := p.name.getD ""
        entityType := p.entityType.getD ""
        aliases := p.aliases.getD []
        createdAt := now
        version := match p.version with
          | some v => if v ≠ 0 then v else 1
          | none => 1 })
  ({ g with entities := g.entities ++ newEntities }, newEntities)

/-- Triple equality on relations (`from`, `to`, `relationType`). -/
def tripleEq (a b : Relation) : Bool :=
  a.rfrom == b.rfrom && a.rto == b.rto && a.relationType == b.relationType

/-- `createRelations` (index.ts lines 197-211). -/
def createRelations (g : KnowledgeGraph) (now : String) (rs : List Relation) :
    KnowledgeGraph × List Relation :=
  let newRelations :=
    (rs.filter (fun r => !(g.relations.any (fun ex => tripleEq ex r)))).map (fun r =>
      { r with createdAt := now, version := if r.version ≠ 0 then r.version else 1 })
  ({ g with relations := g.relations ++ newRelations }, newRelations)

/-- One `addObservations` input group (`{ entityName, contents[] }`). -/
structure ObsInput where
  entityName : String
  contents : List String
deriving DecidableEq, Repr

/-- The inner loop of the status-transition merge in `addObservations`
(index.ts lines 242-268): index of the first observation of the entity that is
currently `Active` and whose prefix-stripped trimmed text equals `txt`. -/
def mergeTarget (en txt : String) (obs : List Observation) : Option Nat :=
  obs.findIdx? (fun o =>
    o.entityName == en && o.status == some ObsStatus.active &&
      strTrim (parseObservationContent o.content).text == txt)

/-- Processing of one content string inside `addObservations`
(index.ts lines 229-298). State: (graph, ids added so far, fresh-id counter). -/
def addContentStep (en now : String) (idGen : Nat → String)
    (st : KnowledgeGraph × List String × Nat) (content : String) :
    KnowledgeGraph × List String × Nat :=
  let (g, ids, k) := st
  let parsed := parseObservationContent content
  let mergeApplies : Bool :=
    match parsed.status with
    | some s => s != ObsStatus.active
    | none => false
  let merged : Option (KnowledgeGraph × List String × Nat) :=
    if mergeApplies then
      match mergeTarget en (strTrim parsed.text) g.observations with
      | some i =>
        match g.observations[i]? with
        | some o =>
          let o' : Observation :=
            { o with content := content,
                     status := parsed.status,
                     timestamp := (match parsed.timestamp with
                       | some t => some t
                       | none => o.timestamp),
                     version := o.version + 1 }
          some ({ g with observations := g.observations.set i o' }, ids ++ [o.id], k)
        | none => none
      | none => none
    else none
  match merged with
  | some st' => st'
  | none =>
    let already := g.observations.any (fun o => o.entityName == en && o.content == content)
    if already then (g, ids, k)
    else
      let newObs : Observation :=
        { id := idGen k, entityName := en, content := content,
          timestamp := parsed.timestamp, status := parsed.status,
          createdAt := now, version := 1 }
      ({ g with observations := g.observations ++ [newObs] }, ids ++ [idGen k], k + 1)

/-- Processing of one input group inside `addObservations`: a missing entity
produces an empty id list and leaves the graph untouched. -/
def processObsGroup (now : String) (idGen : Nat → String)
    (st : KnowledgeGraph × List AddObsResult × Nat) (input : ObsInput) :
    KnowledgeGraph × List AddObsResult × Nat :=
  let (g, results, k) := st
  if g.entities.any (fun e => e.name == input.entityName) then
    let (g', ids, k') := input.contents.foldl (addContentStep input.entityName now idGen) (g, [], k)
    (g', results ++ [⟨ids⟩], k')
  else (g, results ++ [⟨[]⟩], k)

/-- `addObservations` (index.ts lines 214-306). `now` models
`new Date().toISOString()`, `idGen` the `generateObservationId` supply. -/
def addObservations (g : KnowledgeGraph) (now : String) (idGen : Nat → String)
    (inputs : List ObsInput) : KnowledgeGraph × List AddObsResult :=
  let st := inputs.foldl (processObsGroup now idGen) (g, [], 0)
  (st.1, st.2.1)

/-- `deleteEntities` (index.ts lines 309-318): cascade delete. -/
def deleteEntities (g : KnowledgeGraph) (entityNames : List String) : KnowledgeGraph :=
  { entities := g.entities.filter (fun e => !entityNames.contains e.name)
    relations := g.relations.filter (fun r =>
      !entityNames.contains r.rfrom && !entityNames.contains r.rto)
    observations := g.observations.filter (fun o => !entityNames.contains o.entityName) }

/-- `deleteObservations` (index.ts lines 324-340). -/
def deleteObservations (g : KnowledgeGraph) (deletions : List ObsInput) : KnowledgeGraph :=
  deletions.foldl (fun acc d =>
    { acc with observations := acc.observations.filter (fun o =>
        !(o.entityName == d.entityName && d.contents.contains o.content)) }) g

/-- `deleteRelations` (index.ts lines 343-351). -/
def deleteRelations (g : KnowledgeGraph) (rs : List Relation) : KnowledgeGraph :=
  { g with relations := g.relations.filter (fun r => !(rs.any (fun d => tripleEq r d))) }

/-- `searchNodes` (index.ts lines 362-407). Sets of names are modelled as
lists; only membership is ever consumed. -/
def searchNodes (g : KnowledgeGraph) (queries : List String) : KnowledgeGraph :=
  let lq := queries.map strLower
  let filteredEntities := g.entities.filter (fun e =>
    lq.any (fun q =>
      strIncludes (strLower e.name) q || strIncludes (strLower e.entityType) q ||
        e.aliases.any (fun a => strIncludes (strLower a) q)))
  let obsMatchedNames :=
    (g.observations.filter (fun o => lq.any (fun q => strIncludes (strLower o.content) q))).map
      (fun o => o.entityName)
  let matchingEntityNames := filteredEntities.map (fun e => e.name) ++ obsMatchedNames
  let finalEntities := g.entities.filter (fun e => matchingEntityNames.contains e.name)
  let finalNames := finalEntities.map (fun e => e.name)
  { entities := finalEntities
    relations := g.relations.filter (fun r =>
      finalNames.contains r.rfrom && finalNames.contains r.rto)
    observations := g.observations.filter (fun o => finalNames.contains o.entityName) }

/-- `openNodes` (index.ts lines 410-430). -/
def openNodes (g : KnowledgeGraph) (names : List String) : KnowledgeGraph :=
  let filteredEntities := g.entities.filter (fun e => names.contains e.name)
  let filteredNames := filteredEntities.map (fun e => e.name)
  { entities := filteredEntities
    relations := g.relations.filter (fun r =>
      filteredNames.contains r.rfrom && filteredNames.contains r.rto)
    observations := g.observations.filter (fun o => filteredNames.contains o.entityName) }

/-- `performStartupCleanup` (index.ts lines 162-176), acting on a loaded
graph value. -/
def performStartupCleanup (g : KnowledgeGraph) : KnowledgeGraph :=
  { g with observations := g.observations.filter (fun o => o.status != some ObsStatus.archived) }

/-- Set-insertion into an insertion-ordered name list (`Set<string>.add`). -/
def addNameOnce (acc : List String) (n : String) : List String :=
  if acc.contains n then acc else acc ++ [n]

/-- Step 1 of `getContextInfo` (index.ts lines 579-589): resolve each input
to a canonical entity name, by exact name first, then by alias. -/
def resolveNames (g : KnowledgeGraph) (inputNames : List String) : List String :=
  inputNames.foldl (fun acc nm =>
    match g.entities.find? (fun e => e.name == nm) with
    | some e => addNameOnce acc e.name
    | none =>
      match g.entities.find? (fun e => e.aliases.contains nm) with
      | some e => addNameOnce acc e.name
      | none => acc) []

/-- `getContextInfo` (index.ts lines 572-652). -/
def getContextInfo (g : KnowledgeGraph) (inputNames : List String) : KnowledgeGraph :=
  let initialNames := resolveNames g inputNames
  if initialNames.isEmpty then { entities := [], relations := [], observations := [] }
  else
    let directRels := g.relations.filter (fun r =>
      initialNames.contains r.rfrom || initialNames.contains r.rto)
    let finalNames := directRels.foldl (fun acc r => addNameOnce (addNameOnce acc r.rfrom) r.rto)
      initialNames
    let finalEntities := g.entities.filter (fun e => finalNames.contains e.name)
    let finalRelations := (sortByCmp relLe directRels).take 50
    let finalObservations :=
      (sortByCmp obsLe (g.observations.filter (fun o => finalNames.contains o.entityName))).take 25
    { entities := finalEntities, relations := finalRelations, observations := finalObservations }

/-! ## `updateEntities` (index.ts lines 433-526) -/

/-- The relation rewrite inside the rename cascade (index.ts lines 490-505):
rewrite `from`/`to` occurrences of the old name and bump `version` once per
touched relation (the `updated` flag prevents a double bump when both
endpoints match). -/
def renameRelation (oldN newN : String) (r : Relation) : Relation :=
  if r.rfrom = oldN then
    { r with rfrom := newN,
             rto := if r.rto = oldN then newN else r.rto,
             version := r.version + 1 }
  else if r.rto = oldN then
    { r with rto := newN, version := r.version + 1 }
  else r

/-- The observation rewrite inside the rename cascade (index.ts lines 508-515). -/
def renameObservation (oldN newN : String) (o : Observation) : Observation :=
  if o.entityName = oldN then
    { o with entityName := newN, version := o.version + 1 }
  else o

/-- One iteration of the `entitiesToUpdate.forEach` body in `updateEntities`.
State: (graph, updated entities so far, warnings so far). Warnings are
modelled by short tags; only their presence matters. -/
def updateEntityStep (now : String) (st : KnowledgeGraph × List Entity × List String)
    (u : EntityUpdatePayload) : KnowledgeGraph × List Entity × List String :=
  let (g, updatedAcc, warnings) := st
  match g.entities.findIdx? (fun e => e.name == u.name) with
  | none => (g, updatedAcc, warnings ++ ["not found"])
  | some idx =>
    match g.entities[idx]? with
    | none => (g, updatedAcc, warnings)
    | some existing =>
      let newNameT := u.newName.map strTrim
      let renameTo : Option String :=
        match newNameT with
        | some nn => if nn ≠ "" && nn ≠ u.name then some nn else none
        | none => none
      let collision : Bool :=
        match renameTo with
        | some nn =>
          match g.entities.findIdx? (fun e => e.name == nn) with
          | some cIdx => cIdx ≠ idx
          | none => false
        | none => false
      if collision then (g, updatedAcc, warnings ++ ["collision"])
      else
        let finalName := match renameTo with
          | some nn => nn
          | none => u.name
        let updatedEntity : Entity :=
          { existing with
              name := finalName,
              entityType := u.entityType.getD existing.entityType,
              aliases := u.aliases.getD existing.aliases,
              version := existing.version + 1,
              createdAt := now }
        let g1 := { g with entities := g.entities.set idx updatedEntity }
        let g2 :=
          if finalName ≠ u.name then
            { g1 with
                relations := g1.relations.map (renameRelation u.name finalName),
                observations := g1.observations.map (renameObservation u.name finalName) }
          else g1
        (g2, updatedAcc ++ [updatedEntity], warnings)

/-- `updateEntities`: best-effort batch, returning the updated entities and
the collected warnings. -/
def updateEntities (g : KnowledgeGraph) (now : String) (us : List EntityUpdatePayload) :
    KnowledgeGraph × List Entity × List String :=
  us.foldl (updateEntityStep now) (g, [], [])

/-! ## `updateRelations` (index.ts lines 530-567) -/

/-- The `relations.map(...)` pass of `updateRelations`: look every input up by
exact triple; the first miss throws (`Except.error`), aborting the whole
operation before any save. On a hit, the update spreads the input over the
existing relation and then overrides `version` (incremented) and `createdAt`
(refreshed), so the result carries the input's triple, the bumped version and
the fresh timestamp. -/
def mapUpdates (g : KnowledgeGraph) (now : String) : List Relation → Except String (List Relation)
  | [] => Except.ok []
  | u :: rest =>
    match g.relations.find? (fun r => tripleEq r u) with
    | none => Except.error "Relation not found"
    | some ex =>
      match mapUpdates g now rest with
      | Except.error e => Except.error e
      | Except.ok us =>
        Except.ok ({ rfrom := u.rfrom, rto := u.rto, relationType := u.relationType,
                     createdAt := now, version := ex.version + 1 } :: us)

/-- The find-and-replace pass of `updateRelations` (index.ts lines 550-562). -/
def replaceByTriple (rels : List Relation) (ur : Relation) : List Relation :=
  match rels.findIdx? (fun r => tripleEq r ur) with
  | some i => rels.set i ur
  | none => rels

/-- `updateRelations`: strict all-or-nothing batch. A thrown error
(`Except.error`) happens before the save, so the stored graph is unchanged in
that case. -/
def updateRelations (g : KnowledgeGraph) (now : String) (rs : List Relation) :
    Except String (KnowledgeGraph × List Relation) :=
  match mapUpdates g now rs with
  | Except.error e => Except.error e
  | Except.ok updated =>
    Except.ok ({ g with relations := updated.foldl replaceByTriple g.relations }, updated)

/-! ## Record codec and `loadGraph` (index.ts lines 76-115)

`JSON.parse` is a platform primitive; its result is modelled by `Json`.
A backing-file read is modelled as `none` (ENOENT) or the list of nonblank
lines, each line being `none` (a `JSON.parse` failure, caught and skipped
with a warning) or the parsed value. -/

inductive Json where
  | null
  | bool (b : Bool)
  | num (n : Int)
  | str (s : String)
  | arr (elems : List Json)
  | obj (fields : List (String × Json))

/-- Property access `item.field` on a parsed JSON value: `undefined`
(modelled `none`) unless the value is an object with that key. Access on
`null` throws in JS, which the surrounding `try` turns into the same
skip-line outcome as a falsy field, so `none` is a faithful model there too. -/
def jget : Json → String → Option Json
  | Json.obj fields, k => (fields.find? (fun f => f.1 == k)).map (fun f => f.2)
  | _, _ => none

/-- JavaScript truthiness of a possibly-absent JSON value. -/
def jtruthy : Option Json → Bool
  | some Json.null => false
  | some (Json.bool b) => b
  | some (Json.num n) => n ≠ 0
  | some (Json.str s) => s ≠ ""
  | some (Json.arr _) => true
  | some (Json.obj _) => true
  | none => false

/-- `typeof item.content === 'string'`. -/
def jIsStr : Option Json → Bool
  | some (Json.str _) => true
  | _ => false

/-- `item.type === t`. -/
def jTypeIs (j : Json) (t : String) : Bool :=
  match jget j "type" with
  | some (Json.str s) => s == t
  | _ => false

inductive RecordKind where
  | entity
  | relation
  | observation

/-- The line discriminator of `loadGraph`'s reduce body (index.ts lines
87-95): which collection a parsed line is pushed into, or `none` for the
skip-with-warning branch. -/
def classify (j : Json) : Option RecordKind :=
  if jTypeIs j "entity" && jtruthy (jget j "name") && jtruthy (jget j "entityType") then
    some RecordKind.entity
  else if jTypeIs j "relation" && jtruthy (jget j "from") && jtruthy (jget j "to") &&
      jtruthy (jget j "relationType") then
    some RecordKind.relation
  else if jTypeIs j "observation" && jtruthy (jget j "id") && jtruthy (jget j "entityName") &&
      jIsStr (jget j "content") then
    some RecordKind.observation
  else none

/-- The three collections as loaded, before any field extraction (the source
stores the parsed line itself via a cast, `item as Entity` etc.). -/
structure RawGraph where
  entities : List Json := []
  relations : List Json := []
  observations : List Json := []

/-- The reduce body of `loadGraph`. -/
def loadStep (acc : RawGraph) (line : Option Json) : RawGraph :=
  match line with
  | none => acc
  | some j =>
    match classify j with
    | some RecordKind.entity => { acc with entities := acc.entities ++ [j] }
    | some RecordKind.relation => { acc with relations := acc.relations ++ [j] }
    | some RecordKind.observation => { acc with observations := acc.observations ++ [j] }
    | none => acc

/-- `loadGraph`: an absent file (ENOENT, modelled `none`) yields the empty
graph rather than an error; otherwise every line is folded through
`loadStep`, each invalid line being skipped individually. -/
def loadGraph : Option (List (Option Json)) → RawGraph
  | none => {}
  | some lines => lines.foldl loadStep {}

/-! ## Lemmas about the stable sort model -/

theorem mem_insertSorted (le : α → α → Bool) (x a : α) (l : List α) :
    a ∈ insertSorted le x l ↔ a = x ∨ a ∈ l := by
  induction l with
  | nil => simp [insertSorted]
  | cons y ys ih =>
    simp only [insertSorted]
    split
    · simp
    · simp only [List.mem_cons, ih]
      tauto

theorem length_insertSorted (le : α → α → Bool) (x : α) (l : List α) :
    (insertSorted le x l).length = l.length + 1 := by
  induction l with
  | nil => rfl
  | cons y ys ih =>
    simp only [insertSorted]
    split
    · simp
    · simp [ih]

theorem mem_sortByCmp (le : α → α → Bool) (a : α) (l : List α) :
    a ∈ sortByCmp le l ↔ a ∈ l := by
  induction l with
  | nil => simp [sortByCmp]
  | cons x xs ih =>
    simp only [sortByCmp, mem_insertSorted, ih, List.mem_cons]

theorem length_sortByCmp (le : α → α → Bool) (l : List α) :
    (sortByCmp le l).length = l.length := by
  induction l with
  | nil => rfl
  | cons x xs ih => simp [sortByCmp, length_insertSorted, ih]

theorem pairwise_insertSorted (le : α → α → Bool) (P : α → Prop)
    (htot : ∀ a b, P a → P b → le a b = true ∨ le b a = true)
    (htrans : ∀ a b c, P a → P b → P c → le a b = true → le b c = true → le a c = true)
    (x : α) (l : List α) (hPx : P x) (hPl : ∀ a ∈ l, P a)
    (hsort : l.Pairwise (fun a b => le a b = true)) :
    (insertSorted le x l).Pairwise (fun a b => le a b = true) := by
  induction l with
  | nil => simp [insertSorted]
  | cons y ys ih =>
    have hPy : P y := hPl y (List.mem_cons_self y ys)
    have hPys : ∀ a ∈ ys, P a := fun a ha => hPl a (List.mem_cons_of_mem y ha)
    rcases List.pairwise_cons.mp hsort with ⟨hy, hys⟩
    simp only [insertSorted]
    split
    · rename_i hxy
      refine List.pairwise_cons.mpr ⟨?_, hsort⟩
      intro b hb
      rcases List.mem_cons.mp hb with rfl | hb
      · exact hxy
      · exact htrans x y b hPx hPy (hPys b hb) hxy (hy b hb)
    · rename_i hxy
      have hyx : le y x = true := by
        rcases htot x y hPx hPy with h | h
        · exact absurd h hxy
        · exact h
      refine List.pairwise_cons.mpr ⟨?_, ih hPys hys⟩
      intro b hb
      rcases (mem_insertSorted le x b ys).mp hb with rfl | hb
      · exact hyx
      · exact hy b hb

theorem pairwise_sortByCmp (le : α → α → Bool) (P : α → Prop)
    (htot : ∀ a b, P a → P b → le a b = true ∨ le b a = true)
    (htrans : ∀ a b c, P a → P b → P c → le a b = true → le b c = true → le a c = true)
    (l : List α) (hPl : ∀ a ∈ l, P a) :
    (sortByCmp le l).Pairwise (fun a b => le a b = true) := by
  induction l with
  | nil => simp [sortByCmp]
  | cons x xs ih =>
    have hPx : P x := hPl x (List.mem_cons_self x xs)
    have hPxs : ∀ a ∈ xs, P a := fun a ha => hPl a (List.mem_cons_of_mem x ha)
    exact pairwise_insertSorted le P htot htrans x (sortByCmp le xs) hPx
      (fun a ha => hPxs a ((mem_sortByCmp le a xs).mp ha)) (ih hPxs)

/-! ## Claim C1 -/

/-- C1 counterexample: the content `"[x] [S:RESOLVED] hi"` has a leading
bracketed token `x` that does not parse as a valid date, yet
`parseObservationContent` still assigns the status `Resolved` from the
`[S:...]` tag. The claim that such content "yields neither a timestamp nor a
status" is therefore false: only the timestamp is dropped. -/
theorem C1_cex :
    jsDateParse "x" = none ∧
    (parseObservationContent "[x] [S:RESOLVED] hi").timestamp = none ∧
    (parseObservationContent "[x] [S:RESOLVED] hi").status = some ObsStatus.resolved := by
  decide

/-- C1 (amended): whenever the bracket grammar of `parseObservationContent`
matches with a timestamp token whose `Date.parse` value is falsy (invalid
date, or the epoch), the parsed result carries no timestamp, but the status
is still computed from the `[S:...]` token exactly as it would be for a valid
timestamp: a malformed timestamp token is a status carrier. -/
theorem C1_malformed_timestamp_keeps_status (s : String) (t st txt : List Char)
    (hm : matchBrackets s.data = some (t, some st, txt))
    (hbad : jsTruthyNum (jsDateParse (String.mk t)) = false) :
    (parseObservationContent s).timestamp = none ∧
    (parseObservationContent s).status = statusOfToken (String.mk st) := by
  simp [parseObservationContent, hm, hbad]

/-- Witness for C1: the amended statement instantiated at
`"[x] [S:RESOLVED] hi"`. -/
theorem C1_wit :
    (parseObservationContent "[x] [S:RESOLVED] hi").timestamp = none ∧
    (parseObservationContent "[x] [S:RESOLVED] hi").status = statusOfToken "RESOLVED" :=
  C1_malformed_timestamp_keeps_status "[x] [S:RESOLVED] hi" "x".data "RESOLVED".data
    "hi".data (by decide) (by decide)

/-! ## Claim C10 -/

def epochContent : String := "[1970-01-01T00:00:00.000Z] hello"

def gC10 : KnowledgeGraph :=
  { entities := [{ name := "E", entityType := "thing", aliases := [],
                   createdAt := "2024-01-01", version := 1 }],
    relations := [], observations := [] }

def idGen0 : Nat → String := fun k => "obs_" ++ toString k

/-- C10: the content `"[1970-01-01T00:00:00.000Z] hello"` carries a valid
date denoting exactly the Unix epoch (`Date.parse` result `0`), yet the
observation created by `addObservations` has no timestamp, because the
source tests the parse result for truthiness rather than for `NaN`. -/
theorem C10_epoch_timestamp_dropped :
    jsDateParse "1970-01-01T00:00:00.000Z" = some 0 ∧
    parseObservationContent epochContent =
      { timestamp := none, status := none, text := "hello" } ∧
    (addObservations gC10 "2024-06-01" idGen0 [⟨"E", [epochContent]⟩]).1.observations.map
        (fun o => o.timestamp) = [none] := by
  decide

/-! ## The status-transition merge (claims C3 and C9) -/

/-- Full characterisation of a single-group, single-content `addObservations`
call that hits the status-transition merge: the first matching `Active`
observation (index `i`) is replaced in place and its id is returned; nothing
is appended. -/
theorem addObservations_merge_characterisation
    (g : KnowledgeGraph) (now : String) (idGen : Nat → String) (en content : String)
    (ts : Option String) (st : ObsStatus) (txt : String) (i : Nat) (o : Observation)
    (hparse : parseObservationContent content = ⟨ts, some st, txt⟩)
    (hst : st ≠ ObsStatus.active)
    (hent : g.entities.any (fun e => e.name == en) = true)
    (hidx : mergeTarget en (strTrim txt) g.observations = some i)
    (hobs : g.observations[i]? = some o) :
    addObservations g now idGen [⟨en, [content]⟩] =
      ({ g with observations :=
            g.observations.set i ({ o with
              content := content,
              status := some st,
              timestamp := (match ts with | some t => some t | none => o.timestamp),
              version := o.version + 1 }) },
       [⟨[o.id]⟩]) := by
  simp [addObservations, processObsGroup, hent, addContentStep, hparse, hst, hidx, hobs]
  cases ts <;> rfl

def obsC3 : Observation :=
  { id := "a1", entityName := "E",
    content := "[2024-05-05T10:00:00Z] [S:ACTIVE] task done",
    timestamp := some "2024-05-05T10:00:00Z", status := some ObsStatus.active,
    createdAt := "2024-05-05", version := 3 }

def gC3 : KnowledgeGraph :=
  { entities := [{ name := "E", entityType := "task", aliases := [],
                   createdAt := "2024-01-01", version := 1 }],
    relations := [], observations := [obsC3] }

/-- C3 counterexample: `"[garbage] [S:RESOLVED] task done"` parses to status
`Resolved` with *no* timestamp; it text-matches the stored `Active`
observation `a1`, so the merge fires (the same id is returned and the version
becomes 4) — but the mutated observation's timestamp is the *old* one,
`"2024-05-05T10:00:00Z"`, not the new content's (absent) timestamp. The
claim's "timestamp set from the new content" is false at this input. -/
theorem C3_cex :
    (parseObservationContent "[garbage] [S:RESOLVED] task done").status =
      some ObsStatus.resolved ∧
    (parseObservationContent "[garbage] [S:RESOLVED] task done").timestamp = none ∧
    (addObservations gC3 "2024-06-01" idGen0
        [⟨"E", ["[garbage] [S:RESOLVED] task done"]⟩]).2 = [⟨["a1"]⟩] ∧
    (addObservations gC3 "2024-06-01" idGen0
        [⟨"E", ["[garbage] [S:RESOLVED] task done"]⟩]).1.observations.map
        (fun o => (o.timestamp, o.version)) = [(some "2024-05-05T10:00:00Z", 4)] := by
  decide

/-- C3 (amended): a single-group `addObservations` call whose content parses
to a present, non-`Active` status, where the first stored observation of the
entity that is `Active` and text-matches (prefix-stripped, trimmed) sits at
index `i`, mutates that observation in place — content replaced, status set
from the new content, timestamp set from the new content *when it provides
one* (otherwise retained), version incremented by one — creates no new
observation, and returns that observation's id for the group. -/
theorem C3_merge_updates_in_place
    (g : KnowledgeGraph) (now : String) (idGen : Nat → String) (en content : String)
    (ts : Option String) (st : ObsStatus) (txt : String) (i : Nat) (o : Observation)
    (hparse : parseObservationContent content = ⟨ts, some st, txt⟩)
    (hst : st ≠ ObsStatus.active)
    (hent : (g.entities.any fun e => e.name == en) = true)
    (hidx : mergeTarget en (strTrim txt) g.observations = some i)
    (hobs : g.observations[i]? = some o) :
    (addObservations g now idGen [⟨en, [content]⟩]).1.observations =
      g.observations.set i ({ o with
        content := content,
        status := some st,
        timestamp := (match ts with | some t => some t | none => o.timestamp),
        version := o.version + 1 }) ∧
    (addObservations g now idGen [⟨en, [content]⟩]).1.observations.length =
      g.observations.length ∧
    (addObservations g now idGen [⟨en, [content]⟩]).2 = [⟨[o.id]⟩] := by
  have h := addObservations_merge_characterisation g now idGen en content ts st txt i o
    hparse hst hent hidx hobs
  refine ⟨?_, ?_, ?_⟩ <;> simp [h, List.length_set]

/-- Witness for C3 at the concrete merge scenario. -/
theorem C3_wit :
    (addObservations gC3 "2024-06-01" idGen0
        [⟨"E", ["[garbage] [S:RESOLVED] task done"]⟩]).2 = [⟨["a1"]⟩] ∧
    (addObservations gC3 "2024-06-01" idGen0
        [⟨"E", ["[garbage] [S:RESOLVED] task done"]⟩]).1.observations.length =
      gC3.observations.length := by
  have h := C3_merge_updates_in_place gC3 "2024-06-01" idGen0 "E"
    "[garbage] [S:RESOLVED] task done" none ObsStatus.resolved "task done" 0 obsC3
    (by decide) (by decide) (by decide) (by decide) (by decide)
  exact ⟨h.2.2, h.2.1⟩

/-- C9: when the status-transition merge fires, only `content`, `status`,
`timestamp` and `version` of the merged observation change; its `id`,
`entityName` and `createdAt` are untouched (`createdAt` is *not* refreshed),
every other observation is untouched, and the entity and relation collections
are untouched. -/
theorem C9_merge_frame
    (g : KnowledgeGraph) (now : String) (idGen : Nat → String) (en content : String)
    (ts : Option String) (st : ObsStatus) (txt : String) (i : Nat) (o : Observation)
    (hparse : parseObservationContent content = ⟨ts, some st, txt⟩)
    (hst : st ≠ ObsStatus.active)
    (hent : (g.entities.any fun e => e.name == en) = true)
    (hidx : mergeTarget en (strTrim txt) g.observations = some i)
    (hobs : g.observations[i]? = some o) :
    (addObservations g now idGen [⟨en, [content]⟩]).1.entities = g.entities ∧
    (addObservations g now idGen [⟨en, [content]⟩]).1.relations = g.relations ∧
    (∀ j, j ≠ i →
      (addObservations g now idGen [⟨en, [content]⟩]).1.observations[j]? =
        g.observations[j]?) ∧
    (∃ o', (addObservations g now idGen [⟨en, [content]⟩]).1.observations[i]? = some o' ∧
      o'.id = o.id ∧ o'.entityName = o.entityName ∧ o'.createdAt = o.createdAt ∧
      o'.content = content ∧ o'.status = some st ∧ o'.version = o.version + 1) := by
  have h := addObservations_merge_characterisation g now idGen en content ts st txt i o
    hparse hst hent hidx hobs
  have hlt : i < g.observations.length := (List.getElem?_eq_some.mp hobs).1
  refine ⟨by simp [h], by simp [h], ?_, ?_⟩
  · intro j hj
    simp only [h]
    exact List.getElem?_set_ne (fun hij => hj hij.symm)
  · refine ⟨({ o with
        content := content,
        status := some st,
        timestamp := (match ts with | some t => some t | none => o.timestamp),
        version := o.version + 1 }), ?_, rfl, rfl, rfl, rfl, rfl, rfl⟩
    simp only [h]
    cases ts <;> simp [List.getElem?_set_self hlt]

/-- Witness for C9 at the concrete merge scenario. -/
theorem C9_wit :
    (addObservations gC3 "2024-06-01" idGen0
        [⟨"E", ["[garbage] [S:RESOLVED] task done"]⟩]).1.entities = gC3.entities ∧
    (addObservations gC3 "2024-06-01" idGen0
        [⟨"E", ["[garbage] [S:RESOLVED] task done"]⟩]).1.relations = gC3.relations ∧
    (∃ o', (addObservations gC3 "2024-06-01" idGen0
        [⟨"E", ["[garbage] [S:RESOLVED] task done"]⟩]).1.observations[0]? = some o' ∧
      o'.id = obsC3.id ∧ o'.createdAt = obsC3.createdAt ∧ o'.version = obsC3.version + 1) := by
  have h := C9_merge_frame gC3 "2024-06-01" idGen0 "E"
    "[garbage] [S:RESOLVED] task done" none ObsStatus.resolved "task done" 0 obsC3
    (by decide) (by decide) (by decide) (by decide) (by decide)
  obtain ⟨h1, h2, _, o', ho', hid, _, hcr, _, _, hv⟩ := h
  exact ⟨h1, h2, o', ho', hid, hcr, hv⟩

/-! ## Read-path membership lemmas -/

theorem mem_observations_searchNodes (g : KnowledgeGraph) (qs : List String) (o : Observation)
    (ho : o ∈ (searchNodes g qs).observations) : o ∈ g.observations := by
  simp only [searchNodes] at ho
  exact (List.mem_filter.mp ho).1

theorem mem_observations_getContextInfo (g : KnowledgeGraph) (ns : List String) (o : Observation)
    (ho : o ∈ (getContextInfo g ns).observations) : o ∈ g.observations := by
  simp only [getContextInfo] at ho
  split at ho
  · simp at ho
  · exact (List.mem_filter.mp ((mem_sortByCmp _ _ _).mp (List.mem_of_mem_take ho))).1

theorem mem_relations_getContextInfo (g : KnowledgeGraph) (ns : List String) (r : Relation)
    (hr : r ∈ (getContextInfo g ns).relations) : r ∈ g.relations := by
  simp only [getContextInfo] at hr
  split at hr
  · simp at hr
  · exact (List.mem_filter.mp ((mem_sortByCmp _ _ _).mp (List.mem_of_mem_take hr))).1

/-! ## Claim C2 -/

def obsC2 : Observation :=
  { id := "o1", entityName := "Apple",
    content := "[2024-01-02T00:00:00Z] [S:ARCHIVED] gone mushy",
    timestamp := some "2024-01-02T00:00:00Z", status := some ObsStatus.archived,
    createdAt := "2024-01-02", version := 1 }

def gC2 : KnowledgeGraph :=
  { entities := [{ name := "Apple", entityType := "fruit", aliases := [],
                   createdAt := "2024-01-01", version := 1 }],
    relations := [], observations := [obsC2] }

/-- C2 counterexample: a graph whose loaded state contains an `Archived`
observation (as happens when one is written after startup cleanup). Both
`searchNodes` and `getContextInfo` return that archived observation — the
read paths perform no status filtering, so the claim is false. -/
theorem C2_cex :
    obsC2.status = some ObsStatus.archived ∧
    (searchNodes gC2 ["apple"]).observations = [obsC2] ∧
    (getContextInfo gC2 ["Apple"]).observations = [obsC2] := by
  decide

/-- C2 (amended): `searchNodes` and `getContextInfo` do not filter
observations by status; every observation they return is taken from the
loaded graph. Consequently their results are free of `Archived` observations
exactly when the loaded graph is (e.g. immediately after startup cleanup),
not unconditionally. -/
theorem C2_reads_archived_free_iff_graph_is (g : KnowledgeGraph) (qs ns : List String)
    (hclean : ∀ o ∈ g.observations, o.status ≠ some ObsStatus.archived) :
    (∀ o ∈ (searchNodes g qs).observations, o.status ≠ some ObsStatus.archived) ∧
    (∀ o ∈ (getContextInfo g ns).observations, o.status ≠ some ObsStatus.archived) := by
  constructor
  · intro o ho
    exact hclean o (mem_observations_searchNodes g qs o ho)
  · intro o ho
    exact hclean o (mem_observations_getContextInfo g ns o ho)

/-- Witness for C2: the amended statement at a graph that just went through
`performStartupCleanup`. -/
theorem C2_wit :
    (∀ o ∈ (searchNodes (performStartupCleanup gC2) ["apple"]).observations,
      o.status ≠ some ObsStatus.archived) ∧
    (∀ o ∈ (getContextInfo (performStartupCleanup gC2) ["Apple"]).observations,
      o.status ≠ some ObsStatus.archived) :=
  C2_reads_archived_free_iff_graph_is (performStartupCleanup gC2) ["apple"] ["Apple"]
    (by decide)

/-! ## Claim C4 -/

theorem relLe_total_on_valid (a b : Relation)
    (ha : (jsDateParse a.createdAt).isSome = true)
    (hb : (jsDateParse b.createdAt).isSome = true) :
    relLe a b = true ∨ relLe b a = true := by
  obtain ⟨ta, hta⟩ := Option.isSome_iff_exists.mp ha
  obtain ⟨tb, htb⟩ := Option.isSome_iff_exists.mp hb
  simp [relLe, relCmp, hta, htb]
  omega

theorem relLe_trans_on_valid (a b c : Relation)
    (ha : (jsDateParse a.createdAt).isSome = true)
    (hb : (jsDateParse b.createdAt).isSome = true)
    (hc : (jsDateParse c.createdAt).isSome = true)
    (hab : relLe a b = true) (hbc : relLe b c = true) : relLe a c = true := by
  obtain ⟨ta, hta⟩ := Option.isSome_iff_exists.mp ha
  obtain ⟨tb, htb⟩ := Option.isSome_iff_exists.mp hb
  obtain ⟨tc, htc⟩ := Option.isSome_iff_exists.mp hc
  simp [relLe, relCmp, hta, htb, htc] at hab hbc ⊢
  omega

theorem relLe_key_le (a b : Relation) (ta tb : Int)
    (ha : jsDateParse a.createdAt = some ta) (hb : jsDateParse b.createdAt = some tb)
    (hle : relLe a b = true) : tb ≤ ta := by
  simp [relLe, relCmp, ha, hb] at hle
  omega

/-- C4: `getContextInfo` never returns more than 50 relations or 25
observations, and — whenever every stored relation's `createdAt` is a valid
date, the only case in which the comparator induces a total order — the
returned relations are sorted by `createdAt` descending (most recent first),
i.e. they are an initial segment of the descending sort. -/
theorem C4_context_bounds_and_order (g : KnowledgeGraph) (ns : List String) :
    (getContextInfo g ns).relations.length ≤ 50 ∧
    (getContextInfo g ns).observations.length ≤ 25 ∧
    ((∀ r ∈ g.relations, (jsDateParse r.createdAt).isSome = true) →
      (getContextInfo g ns).relations.Pairwise (fun a b =>
        (jsDateParse b.createdAt).getD 0 ≤ (jsDateParse a.createdAt).getD 0)) := by
  by_cases hemp : (resolveNames g ns).isEmpty
  · simp [getContextInfo, hemp]
  · refine ⟨?_, ?_, ?_⟩
    · simp only [getContextInfo, hemp, Bool.false_eq_true, if_false]
      exact List.length_take_le _ _
    · simp only [getContextInfo, hemp, Bool.false_eq_true, if_false]
      exact List.length_take_le _ _
    · intro hval
      have hvalDirect : ∀ r ∈ g.relations.filter (fun r =>
          (resolveNames g ns).contains r.rfrom || (resolveNames g ns).contains r.rto),
          (jsDateParse r.createdAt).isSome = true :=
        fun r hr => hval r (List.mem_filter.mp hr).1
      have hpw := pairwise_sortByCmp relLe (fun r => (jsDateParse r.createdAt).isSome = true)
        relLe_total_on_valid relLe_trans_on_valid _ hvalDirect
      simp only [getContextInfo, hemp, Bool.false_eq_true, if_false]
      refine List.Pairwise.imp_of_mem ?_ (List.Pairwise.sublist (List.take_sublist 50 _) hpw)
      intro a b hma hmb hle
      have hva := hval a (mem_relations_getContextInfo g ns a (by
        simp only [getContextInfo, hemp, Bool.false_eq_true, if_false]
        exact hma))
      have hvb := hval b (mem_relations_getContextInfo g ns b (by
        simp only [getContextInfo, hemp, Bool.false_eq_true, if_false]
        exact hmb))
      obtain ⟨ta, hta⟩ := Option.isSome_iff_exists.mp hva
      obtain ⟨tb, htb⟩ := Option.isSome_iff_exists.mp hvb
      rw [hta, htb]
      exact relLe_key_le a b ta tb hta htb hle

/-- Witness for C4 at a concrete two-relation graph. -/
def gC4 : KnowledgeGraph :=
  { entities := [{ name := "A", entityType := "t", aliases := [],
                   createdAt := "2024-01-01", version := 1 }],
    relations :=
      [{ rfrom := "A", rto := "B", relationType := "knows",
         createdAt := "2024-01-01", version := 1 },
       { rfrom := "A", rto := "C", relationType := "knows",
         createdAt := "2024-01-02", version := 1 }],
    observations := [] }

theorem C4_wit :
    (getContextInfo gC4 ["A"]).relations.length ≤ 50 ∧
    (getContextInfo gC4 ["A"]).observations.length ≤ 25 ∧
    (getContextInfo gC4 ["A"]).relations.Pairwise (fun a b =>
      (jsDateParse b.createdAt).getD 0 ≤ (jsDateParse a.createdAt).getD 0) := by
  have h := C4_context_bounds_and_order gC4 ["A"]
  exact ⟨h.1, h.2.1, h.2.2 (by decide)⟩


/-! ## Claim C5 -/

theorem renameRelation_spec (oldN newN : String) (r : Relation) :
    renameRelation oldN newN r =
      { rfrom := if r.rfrom = oldN then newN else r.rfrom,
        rto := if r.rto = oldN then newN else r.rto,
        relationType := r.relationType,
        createdAt := r.createdAt,
        version := if r.rfrom = oldN ∨ r.rto = oldN then r.version + 1 else r.version } := by
  unfold renameRelation
  split_ifs <;> simp_all

theorem renameObservation_spec (oldN newN : String) (o : Observation) :
    renameObservation oldN newN o =
      { o with entityName := if o.entityName = oldN then newN else o.entityName,
               version := if o.entityName = oldN then o.version + 1 else o.version } := by
  unfold renameObservation
  split_ifs <;> simp_all

/-- Full characterisation of a successful single-entry rename A → B. -/
theorem updateEntities_rename_characterisation
    (g : KnowledgeGraph) (now A B : String) (i : Nat) (ent : Entity)
    (hAB : A ≠ B) (hBne : B ≠ "") (hBtrim : strTrim B = B)
    (hfind : g.entities.findIdx? (fun e => e.name == A) = some i)
    (hget : g.entities[i]? = some ent)
    (hnoB : g.entities.findIdx? (fun e => e.name == B) = none) :
    updateEntities g now [⟨A, some B, none, none⟩] =
      ({ entities := g.entities.set i
            ({ ent with name := B, version := ent.version + 1, createdAt := now }),
         relations := g.relations.map (renameRelation A B),
         observations := g.observations.map (renameObservation A B) },
       [{ ent with name := B, version := ent.version + 1, createdAt := now }], []) := by
  have hBA : B ≠ A := Ne.symm hAB
  simp [updateEntities, updateEntityStep, hfind, hget, hBtrim, hBne, hBA, hnoB]

/-- C5: after a successful single-entry rename A → B (entity A present at
index `i`, no entity named B, entity names unique), no entity named A
remains, every relation endpoint and observation `entityName` equal to A now
reads B, each touched relation's version is bumped exactly once — also when
both endpoints equalled A — each touched observation's version is bumped
once, untouched records keep their versions, and the renamed entity itself
now carries name B with its version bumped. -/
theorem C5_rename_cascade (g : KnowledgeGraph) (now A B : String) (i : Nat) (ent : Entity)
    (hAB : A ≠ B) (hBne : B ≠ "") (hBtrim : strTrim B = B)
    (hfind : g.entities.findIdx? (fun e => e.name == A) = some i)
    (hget : g.entities[i]? = some ent)
    (hnoB : g.entities.findIdx? (fun e => e.name == B) = none)
    (huniq : ∀ (j : Nat) (e : Entity), g.entities[j]? = some e → j ≠ i → e.name ≠ A) :
    (∀ (j : Nat) (e : Entity),
      (updateEntities g now [⟨A, some B, none, none⟩]).1.entities[j]? = some e →
        e.name ≠ A) ∧
    (∀ (j : Nat) (r : Relation), g.relations[j]? = some r →
      (updateEntities g now [⟨A, some B, none, none⟩]).1.relations[j]? =
        some ({ rfrom := if r.rfrom = A then B else r.rfrom,
                rto := if r.rto = A then B else r.rto,
                relationType := r.relationType,
                createdAt := r.createdAt,
                version := if r.rfrom = A ∨ r.rto = A then r.version + 1
                  else r.version })) ∧
    (∀ (j : Nat) (o : Observation), g.observations[j]? = some o →
      (updateEntities g now [⟨A, some B, none, none⟩]).1.observations[j]? =
        some ({ o with
          entityName := if o.entityName = A then B else o.entityName,
          version := if o.entityName = A then o.version + 1 else o.version })) ∧
    (∃ e : Entity, (updateEntities g now [⟨A, some B, none, none⟩]).1.entities[i]? = some e ∧
      e.name = B ∧ e.version = ent.version + 1) := by
  have h := updateEntities_rename_characterisation g now A B i ent hAB hBne hBtrim hfind
    hget hnoB
  have hlt : i < g.entities.length := (List.getElem?_eq_some.mp hget).1
  have hent2 : (updateEntities g now [⟨A, some B, none, none⟩]).1.entities =
      g.entities.set i ({ ent with name := B, version := ent.version + 1, createdAt := now }) := by
    rw [h]
  have hrel2 : (updateEntities g now [⟨A, some B, none, none⟩]).1.relations =
      g.relations.map (renameRelation A B) := by
    rw [h]
  have hobs2 : (updateEntities g now [⟨A, some B, none, none⟩]).1.observations =
      g.observations.map (renameObservation A B) := by
    rw [h]
  refine ⟨?_, ?_, ?_, ?_⟩
  · intro j e hj
    rw [hent2] at hj
    by_cases hij : j = i
    · subst hij
      rw [List.getElem?_set_self hlt] at hj
      cases hj
      exact Ne.symm hAB
    · rw [List.getElem?_set_ne (fun hh => hij hh.symm)] at hj
      exact huniq j e hj hij
  · intro j r hj
    rw [hrel2, List.getElem?_map, hj]
    simp only [Option.map_some']
    rw [renameRelation_spec]
  · intro j o hj
    rw [hobs2, List.getElem?_map, hj]
    simp only [Option.map_some']
    rw [renameObservation_spec]
  · refine ⟨{ ent with name := B, version := ent.version + 1, createdAt := now }, ?_, rfl, rfl⟩
    rw [hent2]
    exact List.getElem?_set_self hlt

def gC5 : KnowledgeGraph :=
  { entities := [{ name := "A", entityType := "t", aliases := [],
                   createdAt := "2024-01-01", version := 1 }],
    relations := [{ rfrom := "A", rto := "A", relationType := "knows",
                    createdAt := "2024-01-01", version := 2 }],
    observations := [{ id := "o1", entityName := "A", content := "x", timestamp := none,
                       status := none, createdAt := "2024-01-01", version := 5 }] }

/-- Witness for C5: renaming A → B in a graph with a self-loop relation
(both endpoints A; its version is bumped once, 2 → 3) and one observation. -/
theorem C5_wit :
    (∀ (j : Nat) (e : Entity),
      (updateEntities gC5 "now" [⟨"A", some "B", none, none⟩]).1.entities[j]? = some e →
        e.name ≠ "A") ∧
    (updateEntities gC5 "now" [⟨"A", some "B", none, none⟩]).1.relations[0]? =
      some ({ rfrom := "B", rto := "B", relationType := "knows",
              createdAt := "2024-01-01", version := 3 }) ∧
    (updateEntities gC5 "now" [⟨"A", some "B", none, none⟩]).1.observations[0]? =
      some ({ id := "o1", entityName := "B", content := "x", timestamp := none,
              status := none, createdAt := "2024-01-01", version := 6 }) := by
  have h := C5_rename_cascade gC5 "now" "A" "B" 0
    { name := "A", entityType := "t", aliases := [], createdAt := "2024-01-01", version := 1 }
    (by decide) (by decide) (by decide) (by decide) (by decide) (by decide)
    (by
      intro j e hj hj0
      match j with
      | 0 => exact absurd rfl hj0
      | j + 1 => simp [gC5] at hj)
  refine ⟨h.1, ?_, ?_⟩
  · have hr := h.2.1 0 ⟨"A", "A", "knows", "2024-01-01", 2⟩ rfl
    simpa using hr
  · have ho := h.2.2.1 0 ⟨"o1", "A", "x", none, none, "2024-01-01", 5⟩ rfl
    simpa using ho

/-! ## Claim C6 -/

theorem mapUpdates_error (g : KnowledgeGraph) (now : String) (rs : List Relation)
    (hmiss : ∃ u ∈ rs, g.relations.find? (fun r => tripleEq r u) = none) :
    mapUpdates g now rs = Except.error "Relation not found" := by
  induction rs with
  | nil => simp at hmiss
  | cons u rest ih =>
    obtain ⟨v, hv, hfind⟩ := hmiss
    rcases List.mem_cons.mp hv with rfl | hv'
    · simp [mapUpdates, hfind]
    · cases hfound : g.relations.find? (fun r => tripleEq r u) with
      | none => simp [mapUpdates, hfound]
      | some ex =>
        have hrest := ih ⟨v, hv', hfind⟩
        simp [mapUpdates, hfound, hrest]

theorem mapUpdates_ok (g : KnowledgeGraph) (now : String) (rap : List Relation)
    (hall : ∀ u ∈ rap, (g.relations.find? (fun r => tripleEq r u)).isSome = true) :
    ∃ us, mapUpdates g now rap = Except.ok us ∧ us.length = rap.length ∧
      ∀ (j : Nat) (u ex : Relation), rap[j]? = some u →
        g.relations.find? (fun r => tripleEq r u) = some ex →
        us[j]? = some ⟨u.rfrom, u.rto, u.relationType, now, ex.version + 1⟩ := by
  induction rap with
  | nil =>
    refine ⟨[], rfl, rfl, ?_⟩
    intro j u ex hj
    simp at hj
  | cons u rest ih =>
    have hu := hall u (List.mem_cons_self u rest)
    obtain ⟨ex, hex⟩ := Option.isSome_iff_exists.mp hu
    obtain ⟨us, hus, hlen, hspec⟩ := ih (fun v hv => hall v (List.mem_cons_of_mem u hv))
    refine ⟨⟨u.rfrom, u.rto, u.relationType, now, ex.version + 1⟩ :: us, ?_, ?_, ?_⟩
    · simp [mapUpdates, hex, hus]
    · simp [hlen]
    · intro j v ex' hj hfind
      match j with
      | 0 =>
        simp only [List.getElem?_cons_zero, Option.some_inj] at hj
        subst hj
        rw [hex] at hfind
        cases hfind
        simp
      | j + 1 =>
        simp only [List.getElem?_cons_succ] at hj ⊢
        exact hspec j v ex' hj hfind

theorem length_replaceByTriple (rels : List Relation) (ur : Relation) :
    (replaceByTriple rels ur).length = rels.length := by
  unfold replaceByTriple
  split
  · exact List.length_set _ _ _
  · rfl

theorem length_foldl_replaceByTriple (us rels : List Relation) :
    (us.foldl replaceByTriple rels).length = rels.length := by
  induction us generalizing rels with
  | nil => rfl
  | cons u rest ih => simp [List.foldl_cons, ih, length_replaceByTriple]

/-- C6: `updateRelations` is strict all-or-nothing. If some input triple has
no exact match among the stored relations, the whole operation fails with the
error before any save, so the stored graph is left unchanged (the operation
produces no new graph). If every triple matches, the operation succeeds: one
updated relation is returned per input, carrying the input's triple, the
matched relation's version incremented by one, and `createdAt` refreshed to
the operation time; the stored entity and observation collections and the
relation count are unchanged. -/
theorem C6_updateRelations_strict (g : KnowledgeGraph) (now : String) (rs : List Relation) :
    ((∃ u ∈ rs, ∀ r ∈ g.relations, tripleEq r u = false) →
      updateRelations g now rs = Except.error "Relation not found") ∧
    ((∀ u ∈ rs, ∃ r ∈ g.relations, tripleEq r u = true) →
      ∃ g' us, updateRelations g now rs = Except.ok (g', us) ∧
        us.length = rs.length ∧
        g'.relations.length = g.relations.length ∧
        g'.entities = g.entities ∧ g'.observations = g.observations ∧
        ∀ (j : Nat) (u ex : Relation), rs[j]? = some u →
          g.relations.find? (fun r => tripleEq r u) = some ex →
          us[j]? = some ⟨u.rfrom, u.rto, u.relationType, now, ex.version + 1⟩) := by
  constructor
  · rintro ⟨u, hu, hnone⟩
    have hfind : g.relations.find? (fun r => tripleEq r u) = none := by
      rw [List.find?_eq_none]
      intro r hr
      simp [hnone r hr]
    have herr := mapUpdates_error g now rs ⟨u, hu, hfind⟩
    simp [updateRelations, herr]
  · intro hall
    have hall' : ∀ u ∈ rs, (g.relations.find? (fun r => tripleEq r u)).isSome = true := by
      intro u hu
      obtain ⟨r, hr, htrip⟩ := hall u hu
      rw [List.find?_isSome]
      exact ⟨r, hr, htrip⟩
    obtain ⟨us, hus, hlen, hspec⟩ := mapUpdates_ok g now rs hall'
    refine ⟨{ g with relations := us.foldl replaceByTriple g.relations }, us, ?_, hlen,
      length_foldl_replaceByTriple us g.relations, rfl, rfl, hspec⟩
    simp [updateRelations, hus]

def gC6 : KnowledgeGraph :=
  { entities := [], relations := [⟨"A", "B", "knows", "2024-01-01", 7⟩], observations := [] }

/-- Witness for C6: one miss aborts with the error; an exact match returns
the relation with version 7 → 8 and refreshed `createdAt`. -/
theorem C6_wit :
    updateRelations gC6 "now" [⟨"A", "C", "knows", "x", 1⟩] =
      Except.error "Relation not found" ∧
    (∃ g' us, updateRelations gC6 "now" [⟨"A", "B", "knows", "x", 1⟩] = Except.ok (g', us) ∧
      us[0]? = some ⟨"A", "B", "knows", "now", 8⟩) := by
  have h1 := C6_updateRelations_strict gC6 "now" [⟨"A", "C", "knows", "x", 1⟩]
  have h2 := C6_updateRelations_strict gC6 "now" [⟨"A", "B", "knows", "x", 1⟩]
  constructor
  · exact h1.1 ⟨⟨"A", "C", "knows", "x", 1⟩, List.mem_singleton.mpr rfl, by decide⟩
  · obtain ⟨g', us, hok, hlen, hrlen, hent, hobs, hspec⟩ := h2.2 (by decide)
    refine ⟨g', us, hok, ?_⟩
    have := hspec 0 ⟨"A", "B", "knows", "x", 1⟩ ⟨"A", "B", "knows", "2024-01-01", 7⟩ rfl
      (by decide)
    simpa using this

/-! ## Claim C7 -/

/-- A `createEntities` entry whose name already exists is silently dropped:
the stored entities are unchanged and nothing is returned for it. -/
theorem createEntities_existing_noop (g : KnowledgeGraph) (now : String) (p : EntityPayload)
    (n : String) (hpn : p.name = some n) (hex : ∃ e ∈ g.entities, e.name = n) :
    (createEntities g now [p]).1.entities = g.entities ∧
    (createEntities g now [p]).2 = [] := by
  have hany : (g.entities.any (fun ex => some ex.name == p.name)) = true := by
    rw [List.any_eq_true]
    obtain ⟨e, he, hen⟩ := hex
    exact ⟨e, he, by simp [hpn, hen]⟩
  constructor
  · simp [createEntities, hany]
  · simp [createEntities, hany]

/-- C7: creating an entity whose name already exists is a silent no-op for
that entry — the entity collection is unchanged (so exactly the one existing
entity with that name remains, its version untouched) and the entry is
absent from the returned list — and repeating the same create twice in a row
stores the entity exactly once: the second call returns nothing and leaves
the graph unchanged. -/
theorem C7_duplicate_create_idempotent (g : KnowledgeGraph) (now now2 n t : String)
    (p : EntityPayload) (al : Option (List String)) (v : Option Nat) :
    ((p.name = some n → (∃ e ∈ g.entities, e.name = n) →
        (createEntities g now [p]).1.entities = g.entities ∧
        (createEntities g now [p]).2 = []) ∧
     (n ≠ "" → t ≠ "" → (∀ e ∈ g.entities, e.name ≠ n) →
        (createEntities g now [⟨some n, some t, al, v⟩]).1.entities.countP
            (fun e => e.name == n) = 1 ∧
        (createEntities (createEntities g now [⟨some n, some t, al, v⟩]).1 now2
            [⟨some n, some t, al, v⟩]).1.entities =
          (createEntities g now [⟨some n, some t, al, v⟩]).1.entities ∧
        (createEntities (createEntities g now [⟨some n, some t, al, v⟩]).1 now2
            [⟨some n, some t, al, v⟩]).2 = [])) := by
  constructor
  · intro hpn hex
    exact createEntities_existing_noop g now p n hpn hex
  · intro hn ht hno
    have hanyf : (g.entities.any (fun ex => some ex.name == some n)) = false := by
      rw [List.any_eq_false]
      intro e he
      simp [hno e he]
    have hg1 : (createEntities g now [⟨some n, some t, al, v⟩]).1.entities =
        g.entities ++
          [⟨n, t, al.getD [], now,
            (match v with | some k => if k ≠ 0 then k else 1 | none => 1)⟩] := by
      simp [createEntities, truthyStr, hn, ht, hanyf, List.filter_cons]
      rw [if_pos hno]
      simp
    have hcount : (createEntities g now [⟨some n, some t, al, v⟩]).1.entities.countP
        (fun e => e.name == n) = 1 := by
      rw [hg1, List.countP_append]
      have h0 : g.entities.countP (fun e => e.name == n) = 0 := by
        rw [List.countP_eq_zero]
        intro e he
        simp [hno e he]
      simp [h0, List.countP_cons]
    have hex1 : ∃ e ∈ (createEntities g now [⟨some n, some t, al, v⟩]).1.entities,
        e.name = n := by
      rw [hg1]
      exact ⟨_, List.mem_append_right _ (List.mem_singleton.mpr rfl), rfl⟩
    have h2 := createEntities_existing_noop (createEntities g now [⟨some n, some t, al, v⟩]).1
      now2 ⟨some n, some t, al, v⟩ n rfl hex1
    exact ⟨hcount, h2.1, h2.2⟩

def gC7 : KnowledgeGraph :=
  { entities := [{ name := "Alice", entityType := "person", aliases := [],
                   createdAt := "2024-01-01", version := 4 }],
    relations := [], observations := [] }

/-- Witness for C7: a duplicate create of `Alice` is dropped, and a fresh
create of `Bob` done twice stores `Bob` exactly once. -/
theorem C7_wit :
    ((createEntities gC7 "t1" [⟨some "Alice", some "person", none, none⟩]).1.entities =
        gC7.entities ∧
      (createEntities gC7 "t1" [⟨some "Alice", some "person", none, none⟩]).2 = []) ∧
    ((createEntities gC7 "t1" [⟨some "Bob", some "person", none, none⟩]).1.entities.countP
        (fun e => e.name == "Bob") = 1 ∧
      (createEntities (createEntities gC7 "t1" [⟨some "Bob", some "person", none, none⟩]).1 "t2"
          [⟨some "Bob", some "person", none, none⟩]).1.entities =
        (createEntities gC7 "t1" [⟨some "Bob", some "person", none, none⟩]).1.entities) := by
  have h1 := C7_duplicate_create_idempotent gC7 "t1" "t2" "Alice" "person"
    ⟨some "Alice", some "person", none, none⟩ none none
  have h2 := C7_duplicate_create_idempotent gC7 "t1" "t2" "Bob" "person"
    ⟨some "Bob", some "person", none, none⟩ none none
  have ha := h1.1 rfl ⟨_, List.mem_singleton.mpr rfl, rfl⟩
  have hb := h2.2 (by decide) (by decide) (by decide)
  exact ⟨⟨ha.1, ha.2⟩, ⟨hb.1, hb.2.1⟩⟩

/-! ## Claim C8 -/

/-- C8: `loadGraph` returns the empty graph (not an error) when the backing
file is absent, and any single line that fails to parse (`none`) or fails its
kind's required-field validation (`classify` rejects it) is skipped
individually: deleting such a line from the input leaves the loaded graph
unchanged, so one bad line never affects the loading of the remaining
lines. -/
theorem C8_load_skips_bad_lines :
    loadGraph none = { entities := [], relations := [], observations := [] } ∧
    (∀ (pre post : List (Option Json)) (line : Option Json),
      (line = none ∨ ∃ j, line = some j ∧ classify j = none) →
      loadGraph (some (pre ++ line :: post)) = loadGraph (some (pre ++ post))) := by
  constructor
  · rfl
  · intro pre post line hbad
    have hstep : ∀ acc, loadStep acc line = acc := by
      intro acc
      rcases hbad with rfl | ⟨j, rfl, hcl⟩
      · rfl
      · simp [loadStep, hcl]
    simp only [loadGraph]
    rw [List.foldl_append, List.foldl_cons, hstep, ← List.foldl_append]

/-- Witness for C8: a malformed line (an object that classifies as no record
kind) between valid lines is skipped, leaving the load of the valid entity
line unaffected; an absent file loads as the empty graph. -/
theorem C8_wit :
    loadGraph none = { entities := [], relations := [], observations := [] } ∧
    loadGraph (some ([some (Json.obj [("type", Json.str "entity"), ("name", Json.str "A"),
        ("entityType", Json.str "t")])] ++ some (Json.obj []) :: [])) =
      loadGraph (some ([some (Json.obj [("type", Json.str "entity"), ("name", Json.str "A"),
        ("entityType", Json.str "t")])] ++ [])) := by
  refine ⟨C8_load_skips_bad_lines.1, ?_⟩
  exact C8_load_skips_bad_lines.2
    [some (Json.obj [("type", Json.str "entity"), ("name", Json.str "A"),
      ("entityType", Json.str "t")])] [] (some (Json.obj []))
    (Or.inr ⟨Json.obj [], rfl, rfl⟩)
